import Mathlib

/-!
Verification development for the bidirectional spreadsheet synchronization
engine of ARBITRAGEXPLUS2025.

The Python sources are shallowly embedded: cell values become the inductive
type `Val` (mirroring the Python values that occur in cells: None, strings,
ints, bools), Python dicts become insertion-ordered association lists with
last-write-wins insertion (`dictInsert`), sheets and per-sheet snapshots of
`ExcelClientV2` become total functions from (row, column) pairs to `Val`
(the Python dict `.get` default None is `Val.none`), and the mutating
methods become state-passing functions.

Embedded components:
* `ExcelClientV2` (services/python-collector/src/excel_client_v2.py):
  header classification, PULL-change detection, PUSH-column updates.
* `BlockchainsWatcherV2._handle_change` / `._handle_push_change`
  (automation/python-collector/src/blockchains_watcher_v2.py).
* `SnapshotManager` (services/python-collector/src/lib/snapshot_manager.py).
* `BlockchainDataAggregator.aggregate_blockchain_data`
  (services/python-collector/src/aggregators/blockchain_data_aggregator.py).
* `ExcelClient._detect_column_mode`
  (automation/python-collector/src/lib/excel_client.py).
* `TokenBucket` (services/python-collector/src/lib/rate_limiter.py),
  with time stamps and token counts as rationals.
-/

namespace Arbx

/-- Python cell values as they occur in the synchronization engine:
`None`, strings, integers and booleans. -/
inductive Val where
  | none
  | str (s : String)
  | int (n : Int)
  | bool (b : Bool)
deriving DecidableEq, Repr

/-- Numeric view used for Python equality: `True == 1` and `False == 0`. -/
def Val.toNum : Val → Option Int
  | Val.int n => some n
  | Val.bool b => some (if b then 1 else 0)
  | _ => Option.none

/-- Python `==` on cell values: `None` equals only `None`, strings compare as
strings, and numeric values (ints and bools) compare numerically. -/
def Val.pyEq : Val → Val → Bool
  | Val.none, Val.none => true
  | Val.str a, Val.str b => a == b
  | a, b =>
    match a.toNum, b.toNum with
    | some x, some y => x == y
    | _, _ => false

/-- Python truthiness of a cell value. -/
def Val.truthy : Val → Bool
  | Val.none => false
  | Val.str s => !s.isEmpty
  | Val.int n => n != 0
  | Val.bool b => b

/-- Python `str.upper()` (character by character, so that proofs can
evaluate it). -/
def strUpper (s : String) : String :=
  String.mk (s.data.map Char.toUpper)

/-- Python `str.lower()`. -/
def strLower (s : String) : String :=
  String.mk (s.data.map Char.toLower)

/-- An ASCII whitespace character as stripped by Python `str.strip()`. -/
def isPySpace (c : Char) : Bool :=
  c == ' ' || c == '\t' || c == '\n' || c == '\r'

/-- Python `str.strip()`: drop whitespace from both ends. -/
def strStrip (s : String) : String :=
  String.mk (((s.data.dropWhile isPySpace).reverse.dropWhile isPySpace).reverse)

/-- Python `str.startswith(p)`. -/
def strStartsWith (s p : String) : Bool :=
  s.data.take p.data.length == p.data

/-- Python dict insertion: an existing key keeps its position and gets the
new value, a fresh key is appended (insertion order semantics). -/
def dictInsert {α : Type} (k : String) (v : α) : List (String × α) → List (String × α)
  | [] => [(k, v)]
  | (k₁, v₁) :: rest =>
    if k₁ = k then (k, v) :: rest else (k₁, v₁) :: dictInsert k v rest

/-- Python dict lookup (`d.get(k)` without default). -/
def dictGet? {α : Type} (k : String) : List (String × α) → Option α
  | [] => Option.none
  | (k₁, v₁) :: rest => if k₁ = k then some v₁ else dictGet? k rest

/-- Python `d.update(other)`: insert the pairs of `other` in order. -/
def dictUpdate {α : Type} (d other : List (String × α)) : List (String × α) :=
  other.foldl (fun acc kv => dictInsert kv.1 kv.2 acc) d

/-! ## ExcelClientV2 (services/python-collector/src/excel_client_v2.py) -/

/-- Reference PUSH header fill color of `ExcelClientV2`. -/
def BLUE_COLOR : String := "4472C4"

/-- Default header color when a cell has no fill. -/
def WHITE_COLOR : String := "FFFFFF"

/-- Column metadata of `ExcelClientV2` (1-based index, header name,
column type string "PUSH" or "PULL"). -/
structure ColumnMeta where
  index : Nat
  name : String
  type : String
deriving DecidableEq, Repr

/-- `ExcelClientV2._get_header_color`: no fill (or empty rgb) reads as white;
an 8-digit ARGB value drops its alpha channel; the result is uppercased. -/
def getHeaderColor : Option String → String
  | Option.none => WHITE_COLOR
  | some c =>
    if c.isEmpty then WHITE_COLOR
    else strUpper (if c.length = 8 then c.drop 2 else c)

/-- A header cell of row 1: its value (None cells are skipped) and the raw
fill color handed to `_get_header_color`. -/
structure HeaderCell where
  value : Option String
  color : Option String

/-- `ExcelClientV2.get_column_metadata`: walk the header row (1-based column
indices), skip empty headers, classify exactly the reference blue as PUSH and
everything else as PULL. -/
def get_column_metadata (headers : List HeaderCell) : List ColumnMeta :=
  (headers.enumFrom 1).foldl
    (fun acc cell =>
      match cell.2.value with
      | Option.none => acc
      | some nm =>
        if nm.isEmpty then acc
        else
          let color := getHeaderColor cell.2.color
          let t := if color = BLUE_COLOR then "PUSH" else "PULL"
          acc ++ [⟨cell.1, nm, t⟩])
    []

/-- `ExcelClientV2.get_pull_columns`. -/
def get_pull_columns (metadata : List ColumnMeta) : List ColumnMeta :=
  metadata.filter (fun c => c.type = "PULL")

/-- `ExcelClientV2.get_push_columns`. -/
def get_push_columns (metadata : List ColumnMeta) : List ColumnMeta :=
  metadata.filter (fun c => c.type = "PUSH")

/-- A sheet: cell values keyed by (1-based row, 1-based column). -/
def Sheet : Type := Nat × Nat → Val

/-- A per-sheet snapshot of `ExcelClientV2._snapshots`: the dict
`(row, col) -> value` read through `.get`, whose missing-key default `None`
is `Val.none`. -/
def SnapV2 : Type := Nat × Nat → Val

/-- A change dict as produced by `detect_changes_in_pull_columns`. -/
structure ChangeRec where
  row : Nat
  column : Nat
  column_name : String
  old_value : Val
  new_value : Val
deriving DecidableEq, Repr

/-- Inner loop of `detect_changes_in_pull_columns` over one row: compare the
cell against the snapshot for each watched column; on a difference, append a
change dict and immediately write the current value into the snapshot. -/
def detectCellsRow (sheet : Sheet) (row : Nat) :
    List ColumnMeta → List ChangeRec × SnapV2 → List ChangeRec × SnapV2
  | [], acc => acc
  | col :: rest, (chs, snap) =>
    let current := sheet (row, col.index)
    let old := snap (row, col.index)
    if Val.pyEq current old then detectCellsRow sheet row rest (chs, snap)
    else
      detectCellsRow sheet row rest
        (chs ++ [⟨row, col.index, col.name, old, current⟩],
         Function.update snap (row, col.index) current)

/-- Outer loop of `detect_changes_in_pull_columns` over the scanned rows. -/
def detectRows (sheet : Sheet) (cols : List ColumnMeta) :
    List Nat → List ChangeRec × SnapV2 → List ChangeRec × SnapV2
  | [], acc => acc
  | row :: rest, acc => detectRows sheet cols rest (detectCellsRow sheet row cols acc)

/-- The change-detection core of `ExcelClientV2`: scan the given rows and
columns against the snapshot, returning the change dicts in scan order and
the snapshot as mutated during the scan. -/
def detectChangesInCols (sheet : Sheet) (snap : SnapV2) (cols : List ColumnMeta)
    (rows : List Nat) : List ChangeRec × SnapV2 :=
  detectRows sheet cols rows ([], snap)

/-- The row range `range(start_row, min(end_row + 1, max_row + 1))`. -/
def rowRange (startRow endRow maxRow : Nat) : List Nat :=
  List.range' startRow (min (endRow + 1) (maxRow + 1) - startRow)

/-- `ExcelClientV2.detect_changes_in_pull_columns`. -/
def detect_changes_in_pull_columns (sheet : Sheet) (snap : SnapV2)
    (headers : List HeaderCell) (startRow endRow maxRow : Nat) :
    List ChangeRec × SnapV2 :=
  detectChangesInCols sheet snap (get_pull_columns (get_column_metadata headers))
    (rowRange startRow endRow maxRow)

/-- The dict comprehension `{col.name: col.index for col in push_columns}`. -/
def pushColMap (pushCols : List ColumnMeta) : List (String × Nat) :=
  pushCols.foldl (fun acc c => dictInsert c.name c.index acc) []

/-- `ExcelClientV2.update_push_columns`: for each data entry whose key names a
PUSH column, write the value into that column's cell of the given row and
into the snapshot; other keys are ignored. -/
def update_push_columns (sheet : Sheet) (snap : SnapV2) (pushCols : List ColumnMeta)
    (row : Nat) (data : List (String × Val)) : Sheet × SnapV2 :=
  data.foldl
    (fun st kv =>
      match dictGet? kv.1 (pushColMap pushCols) with
      | some cidx =>
        (Function.update st.1 (row, cidx) kv.2, Function.update st.2 (row, cidx) kv.2)
      | Option.none => st)
    (sheet, snap)

/-! ## BlockchainsWatcherV2 handlers
(automation/python-collector/src/blockchains_watcher_v2.py) -/

/-- Modelled from the spec: `detect_changes_in_push_columns` is called by
`BlockchainsWatcherV2.start` but the `ExcelClientV2` variant defining it is
not in the repository. Per the spec the PUSH watch pass diffs the PUSH
columns against the snapshot exactly as the PULL pass does, so it mirrors
`detect_changes_in_pull_columns` restricted to the PUSH column set. -/
def detect_changes_in_push_columns (sheet : Sheet) (snap : SnapV2)
    (headers : List HeaderCell) (startRow endRow maxRow : Nat) :
    List ChangeRec × SnapV2 :=
  detectChangesInCols sheet snap (get_push_columns (get_column_metadata headers))
    (rowRange startRow endRow maxRow)

/-- Modelled from the spec: `clear_push_columns` is called by
`BlockchainsWatcherV2._handle_change` but the `ExcelClientV2` variant
defining it is not in the repository. Per the spec it clears every PUSH
column cell of the given row and updates the snapshot accordingly. -/
def clear_push_columns (sheet : Sheet) (snap : SnapV2) (pushCols : List ColumnMeta)
    (row : Nat) : Sheet × SnapV2 :=
  pushCols.foldl
    (fun st col =>
      (Function.update st.1 (row, col.index) Val.none,
       Function.update st.2 (row, col.index) Val.none))
    (sheet, snap)

/-- `BlockchainsWatcherV2._handle_push_change`: restore the pre-change value
of a PUSH cell by writing the change's old value through
`update_push_columns` (which also rewrites the snapshot entry). -/
def handle_push_change (pushCols : List ColumnMeta) (st : Sheet × SnapV2)
    (ch : ChangeRec) : Sheet × SnapV2 :=
  update_push_columns st.1 st.2 pushCols ch.row [(ch.column_name, ch.old_value)]

/-- `BlockchainsWatcherV2._handle_change`: on a NAME change, a truthy new
value triggers a fetch and a PUSH-column update; an empty new value with a
truthy old value clears the row's PUSH columns; anything else is ignored.
`fetch` abstracts `_fetch_blockchain_data`. -/
def handle_change (fetch : Val → List (String × Val)) (pushCols : List ColumnMeta)
    (st : Sheet × SnapV2) (ch : ChangeRec) : Sheet × SnapV2 :=
  if ch.column_name = "NAME" then
    if ch.new_value.truthy then
      update_push_columns st.1 st.2 pushCols ch.row (fetch ch.new_value)
    else if ch.old_value.truthy then
      clear_push_columns st.1 st.2 pushCols ch.row
    else st
  else st

/-- One PUSH watch pass of a `BlockchainsWatcherV2` tick: detect PUSH-column
changes, then run `_handle_push_change` on each detected change. -/
def tickPushPass (pushCols : List ColumnMeta) (sheet : Sheet) (snap : SnapV2)
    (rows : List Nat) : (Sheet × SnapV2) × List ChangeRec :=
  let det := detectChangesInCols sheet snap pushCols rows
  (det.1.foldl (handle_push_change pushCols) (sheet, det.2), det.1)

/-- One PULL watch pass of a `BlockchainsWatcherV2` tick: detect PULL-column
changes, then run `_handle_change` on each detected change. -/
def tickPullPass (fetch : Val → List (String × Val)) (pullCols pushCols : List ColumnMeta)
    (sheet : Sheet) (snap : SnapV2) (rows : List Nat) :
    (Sheet × SnapV2) × List ChangeRec :=
  let det := detectChangesInCols sheet snap pullCols rows
  (det.1.foldl (handle_change fetch pushCols) (sheet, det.2), det.1)

/-- `BlockchainsWatcher._handle_change` with the spreadsheet write raising
(services/python-collector/src/watchers/blockchains_watcher.py): the
exception from `update_push_columns` is caught and logged, so neither the
sheet nor any snapshot entry is touched by the handler. The PULL snapshot
entry of the detected change was already advanced inside
`detect_changes_in_pull_columns`. -/
def handle_change_failing_write (st : Sheet × SnapV2) (_ch : ChangeRec) :
    Sheet × SnapV2 :=
  st

/-- A watcher tick whose PUSH-column write fails for every detected change:
detection still runs (mutating the snapshot), the handlers leave the state
as detection produced it. -/
def tickPullPassFailingWrite (pullCols : List ColumnMeta) (sheet : Sheet)
    (snap : SnapV2) (rows : List Nat) : (Sheet × SnapV2) × List ChangeRec :=
  let det := detectChangesInCols sheet snap pullCols rows
  (det.1.foldl handle_change_failing_write (sheet, det.2), det.1)

/-! ## SnapshotManager (services/python-collector/src/lib/snapshot_manager.py) -/

/-- `CellSnapshot` dataclass. -/
structure CellSnapshot where
  row : Nat
  col : Nat
  value : Val
  timestamp : String
deriving DecidableEq, Repr

/-- `SheetSnapshot` dataclass; `cells` is the dict keyed by `"row_col"`. -/
structure SheetSnapshot where
  sheet_name : String
  cells : List (String × CellSnapshot)
  last_update : String
  version : Nat
deriving DecidableEq, Repr

/-- `CellChange` dataclass. -/
structure CellChange where
  sheet_name : String
  row : Nat
  col : Nat
  column_name : String
  old_value : Val
  new_value : Val
  timestamp : String
deriving DecidableEq, Repr

/-- `SnapshotManager._cell_key`. -/
def cellKey (row col : Nat) : String :=
  toString row ++ "_" ++ toString col

/-- A row of sheet data as handed to the manager: one dict per row. -/
def RowData : Type := List (String × Val)

/-- `row_data.get(col_name)` with Python's missing-key default None. -/
def rowGet (rd : RowData) (k : String) : Val :=
  (dictGet? k rd).getD Val.none

/-- The `snapshots` dict of a `SnapshotManager`. -/
def Snapshots : Type := List (String × SheetSnapshot)

/-- Cell map built by `SnapshotManager.create_snapshot`: for each row dict
(rows numbered from `start_row`) and each entry whose column is in the
mapping, store a `CellSnapshot` under the key of its 1-based coordinates. -/
def snapshotCells (data : List RowData) (columnMapping : List (String × Nat))
    (startRow : Nat) (timestamp : String) : List (String × CellSnapshot) :=
  (data.enumFrom startRow).foldl
    (fun cells rowEntry =>
      rowEntry.2.foldl
        (fun cells kv =>
          match dictGet? kv.1 columnMapping with
          | some cidx0 =>
            dictInsert (cellKey rowEntry.1 (cidx0 + 1))
              ⟨rowEntry.1, cidx0 + 1, kv.2, timestamp⟩ cells
          | Option.none => cells)
        cells)
    []

/-- `SnapshotManager.create_snapshot`: build the cell map, bump the version
past any existing snapshot of the sheet, and store it in `snapshots`. -/
def create_snapshot (snapshots : Snapshots) (sheetName : String)
    (data : List RowData) (columnMapping : List (String × Nat)) (startRow : Nat)
    (timestamp : String) : SheetSnapshot × Snapshots :=
  let cells := snapshotCells data columnMapping startRow timestamp
  let version :=
    match dictGet? sheetName snapshots with
    | some old => old.version + 1
    | Option.none => 1
  let snap : SheetSnapshot := ⟨sheetName, cells, timestamp, version⟩
  (snap, dictInsert sheetName snap snapshots)

/-- `SnapshotManager.detect_changes`: with no prior snapshot, silently create
one and report nothing; otherwise compare every watched cell of the current
data against the stored cell value (missing cells read as None on both
sides) and collect one `CellChange` per difference. The stored snapshot is
not modified in the comparison branch. -/
def detect_changes (snapshots : Snapshots) (sheetName : String)
    (currentData : List RowData) (columnMapping : List (String × Nat))
    (startRow : Nat) (columnsToWatch : Option (List String)) (timestamp : String) :
    List CellChange × Snapshots :=
  match dictGet? sheetName snapshots with
  | Option.none =>
    ([], (create_snapshot snapshots sheetName currentData columnMapping startRow timestamp).2)
  | some old =>
    let colsToCheck :=
      match columnsToWatch with
      | some l => if l.isEmpty then columnMapping.map Prod.fst else l
      | Option.none => columnMapping.map Prod.fst
    let changes :=
      (currentData.enumFrom startRow).foldl
        (fun chs rowEntry =>
          colsToCheck.foldl
            (fun chs colName =>
              match dictGet? colName columnMapping with
              | Option.none => chs
              | some cidx0 =>
                let key := cellKey rowEntry.1 (cidx0 + 1)
                let current := rowGet rowEntry.2 colName
                let oldv :=
                  match dictGet? key old.cells with
                  | some cell => cell.value
                  | Option.none => Val.none
                if Val.pyEq current oldv then chs
                else chs ++ [⟨sheetName, rowEntry.1, cidx0 + 1, colName, oldv, current, timestamp⟩])
            chs)
        []
    (changes, snapshots)

/-! ## Snapshot persistence (save_to_disk / load_from_disk)

The JSON text layer is Python's `json` module; the embedding models the
JSON tree the manager builds and reads, so the round-trip theorem is about
the manager's own serialization shape. -/

/-- JSON values produced by `json.dump` of a snapshot. -/
inductive Json where
  | null
  | jbool (b : Bool)
  | jnum (n : Int)
  | jstr (s : String)
  | jobj (fields : List (String × Json))
deriving Repr

/-- Cell values serialize to their JSON counterparts. -/
def Val.toJson : Val → Json
  | Val.none => Json.null
  | Val.str s => Json.jstr s
  | Val.int n => Json.jnum n
  | Val.bool b => Json.jbool b

/-- Reading a cell value back from JSON. -/
def Val.fromJson : Json → Option Val
  | Json.null => some Val.none
  | Json.jstr s => some (Val.str s)
  | Json.jnum n => some (Val.int n)
  | Json.jbool b => some (Val.bool b)
  | _ => Option.none

/-- `asdict(cell)` as serialized inside `SnapshotManager.save_to_disk`. -/
def cellToJson (c : CellSnapshot) : Json :=
  Json.jobj
    [("row", Json.jnum (Int.ofNat c.row)), ("col", Json.jnum (Int.ofNat c.col)),
     ("value", c.value.toJson), ("timestamp", Json.jstr c.timestamp)]

/-- `CellSnapshot(**cell_data)` as reconstructed inside
`SnapshotManager.load_from_disk`. -/
def cellFromJson : Json → Option CellSnapshot
  | Json.jobj fields =>
    match dictGet? "row" fields, dictGet? "col" fields,
        dictGet? "value" fields, dictGet? "timestamp" fields with
    | some (Json.jnum r), some (Json.jnum c), some v, some (Json.jstr t) =>
      match Val.fromJson v with
      | some value =>
        if 0 ≤ r ∧ 0 ≤ c then some ⟨r.toNat, c.toNat, value, t⟩ else Option.none
      | Option.none => Option.none
    | _, _, _, _ => Option.none
  | _ => Option.none

/-- The dict written by `SnapshotManager.save_to_disk` for one sheet. -/
def snapshot_to_json (s : SheetSnapshot) : Json :=
  Json.jobj
    [("sheet_name", Json.jstr s.sheet_name),
     ("last_update", Json.jstr s.last_update),
     ("version", Json.jnum (Int.ofNat s.version)),
     ("cells", Json.jobj (s.cells.map (fun kv => (kv.1, cellToJson kv.2))))]

/-- Parse a list of serialized cells back, failing if any cell fails. -/
def cellsFromJson : List (String × Json) → Option (List (String × CellSnapshot))
  | [] => some []
  | (k, j) :: rest =>
    match cellFromJson j, cellsFromJson rest with
    | some c, some cs => some ((k, c) :: cs)
    | _, _ => Option.none

/-- The snapshot reconstructed by `SnapshotManager.load_from_disk` from the
file contents. -/
def snapshot_from_json : Json → Option SheetSnapshot
  | Json.jobj fields =>
    match dictGet? "sheet_name" fields, dictGet? "last_update" fields,
        dictGet? "version" fields, dictGet? "cells" fields with
    | some (Json.jstr nm), some (Json.jstr lu), some (Json.jnum v),
        some (Json.jobj cellFields) =>
      match cellsFromJson cellFields with
      | some cells =>
        if 0 ≤ v then some ⟨nm, cells, lu, v.toNat⟩ else Option.none
      | Option.none => Option.none
    | _, _, _, _ => Option.none
  | _ => Option.none

/-- Manager-level `load_from_disk`: on a successful parse the snapshot is
stored under the requested sheet name. -/
def load_from_disk (snapshots : Snapshots) (sheetName : String) (file : Json) :
    Option (SheetSnapshot × Snapshots) :=
  match snapshot_from_json file with
  | some s => some (s, dictInsert sheetName s snapshots)
  | Option.none => Option.none

/-! ## BlockchainDataAggregator
(services/python-collector/src/aggregators/blockchain_data_aggregator.py) -/

/-- `BlockchainDataAggregator.CHAIN_ID_MAP`. -/
def CHAIN_ID_MAP : List (String × Int) :=
  [("ethereum", 1), ("polygon", 137), ("bsc", 56), ("binance", 56),
   ("arbitrum", 42161), ("optimism", 10), ("avalanche", 43114),
   ("base", 8453), ("gnosis", 100)]

/-- `BlockchainDataAggregator.NATIVE_TOKEN_MAP`. -/
def NATIVE_TOKEN_MAP : List (String × String) :=
  [("ethereum", "ETH"), ("polygon", "MATIC"), ("bsc", "BNB"), ("binance", "BNB"),
   ("arbitrum", "ETH"), ("optimism", "ETH"), ("avalanche", "AVAX"),
   ("base", "ETH"), ("gnosis", "xDAI")]

/-- Python `str.capitalize()`: first character uppercased, rest lowercased. -/
def pyCapitalize (s : String) : String :=
  strUpper (s.take 1) ++ strLower (s.drop 1)

/-- Python `int(v)` on a cell value; `none` when the call would raise. -/
def pyInt : Val → Option Int
  | Val.int n => some n
  | Val.bool b => some (if b then 1 else 0)
  | Val.str s => s.toInt?
  | Val.none => Option.none

/-- The key priority list of `_get_chain_id`. -/
def chainIdKeys : List String :=
  ["DEFILLAMA_CHAIN_ID", "LLAMANODES_CHAIN_ID", "PUBLICNODE_CHAIN_ID"]

/-- `BlockchainDataAggregator._get_chain_id`: return the first truthy fetched
chain id (converted with `int`, which may raise), else the known mapping of
the lowercased, stripped chain name with default 0. -/
def get_chain_id (chainName : String) (fetched : List (String × Val)) : Option Int :=
  match chainIdKeys.find?
      (fun k => ((dictGet? k fetched).getD Val.none).truthy) with
  | some k => pyInt ((dictGet? k fetched).getD Val.none)
  | Option.none => some ((dictGet? (strStrip (strLower chainName)) CHAIN_ID_MAP).getD 0)

/-- `BlockchainDataAggregator._get_native_token`: a truthy fetched
`DEFILLAMA_TOKEN_SYMBOL` wins, else the known mapping with default
"UNKNOWN". -/
def get_native_token (chainName : String) (fetched : List (String × Val)) : Val :=
  if ((dictGet? "DEFILLAMA_TOKEN_SYMBOL" fetched).getD Val.none).truthy then
    (dictGet? "DEFILLAMA_TOKEN_SYMBOL" fetched).getD Val.none
  else Val.str ((dictGet? (strStrip (strLower chainName)) NATIVE_TOKEN_MAP).getD "UNKNOWN")

/-- `BlockchainDataAggregator.aggregate_blockchain_data` after the three
per-source fetches (each of which catches its own exceptions and degrades to
an empty dict): merge the source dicts in order, add the derived fields, and
stamp the elapsed time. `aggregatedAt` and `fetchTimeMs` stand for the wall
clock reads. The result is `none` exactly when `int()` raises inside
`_get_chain_id`. -/
def aggregate_blockchain_data (chainName : String)
    (defillamaData llamanodesData publicnodesData : List (String × Val))
    (aggregatedAt : String) (fetchTimeMs : Int) : Option (List (String × Val)) :=
  let agg := dictUpdate (dictUpdate (dictUpdate [] defillamaData) llamanodesData)
    publicnodesData
  match get_chain_id chainName agg with
  | Option.none => Option.none
  | some chainId =>
    let nativeToken := get_native_token chainName agg
    let agg := dictUpdate agg
      [("BLOCKCHAIN_ID", Val.str (strLower chainName ++ "_" ++ toString chainId)),
       ("NAME", Val.str (pyCapitalize chainName)),
       ("CHAIN_ID", Val.int chainId),
       ("NATIVE_TOKEN", nativeToken),
       ("SYMBOL", nativeToken),
       ("IS_ACTIVE", Val.bool true),
       ("HEALTH_STATUS",
        Val.str (if ((dictGet? "RPC_IS_ACTIVE" agg).getD (Val.bool false)).truthy
          then "HEALTHY" else "UNKNOWN")),
       ("AGGREGATED_AT", Val.str aggregatedAt)]
    some (dictInsert "FETCH_TIME_MS" (Val.int fetchTimeMs) agg)

/-! ## ExcelClient column classifier
(automation/python-collector/src/lib/excel_client.py) -/

/-- `ColumnMode` enum. -/
inductive ColumnMode where
  | PUSH
  | PULL
  | UNKNOWN
deriving DecidableEq, Repr

/-- `ExcelClient.BLUE_PUSH_COLORS`. -/
def BLUE_PUSH_COLORS : List String :=
  ["FF0070C0", "000070C0", "0070C0", "4472C4", "5B9BD5"]

/-- `ExcelClient.WHITE_PULL_COLORS` without its `None` entry, which the
classifier's `if white` test skips. -/
def WHITE_PULL_COLORS : List String :=
  ["FFFFFFFF", "00FFFFFF", "FFFFFF"]

/-- Value of one hexadecimal digit as accepted by Python `int(s, 16)`. -/
def hexDigitVal (c : Char) : Option Nat :=
  if '0' ≤ c ∧ c ≤ '9' then some (c.toNat - '0'.toNat)
  else if 'a' ≤ c ∧ c ≤ 'f' then some (c.toNat - 'a'.toNat + 10)
  else if 'A' ≤ c ∧ c ≤ 'F' then some (c.toNat - 'A'.toNat + 10)
  else Option.none

/-- `int(rgb_hex[i:i+2], 16)` on two hex digits. -/
def hexPair (c₁ c₂ : Char) : Option Nat :=
  match hexDigitVal c₁, hexDigitVal c₂ with
  | some h, some l => some (h * 16 + l)
  | _, _ => Option.none

/-- The alpha-stripping step of `_detect_column_mode` (on the original,
non-uppercased value, as in the source). -/
def stripAlpha (s : String) : String :=
  if strStartsWith s "FF" || strStartsWith s "00" then s.drop 2 else s

/-- The component-parsing step of `_detect_column_mode`: only a 6-character
value is parsed, and a `ValueError` from `int` yields no components. -/
def parseRGB6 (s : String) : Option (Nat × Nat × Nat) :=
  match s.data with
  | [a, b, c, d, e, f] =>
    match hexPair a b, hexPair c d, hexPair e f with
    | some r, some g, some bb => some (r, g, bb)
    | _, _, _ => Option.none
  | _ => Option.none

/-- `ExcelClient._detect_column_mode`: no color means PULL; an exact blue
reference match means PUSH; an exact white reference match means PULL;
otherwise strip the alpha prefix and inspect the RGB components (blue band
gives PUSH, near-white gives PULL); everything else is UNKNOWN. -/
def detect_column_mode (cellColor : Option String) : ColumnMode :=
  match cellColor with
  | Option.none => ColumnMode.PULL
  | some rgb =>
    if BLUE_PUSH_COLORS.any (fun blue => strUpper rgb == strUpper blue) then
      ColumnMode.PUSH
    else if WHITE_PULL_COLORS.any (fun white => strUpper rgb == strUpper white) then
      ColumnMode.PULL
    else
      match parseRGB6 (stripAlpha rgb) with
      | some (r, g, b) =>
        if b > 150 ∧ r < 100 ∧ g < 150 then ColumnMode.PUSH
        else if r > 240 ∧ g > 240 ∧ b > 240 then ColumnMode.PULL
        else ColumnMode.UNKNOWN
      | Option.none => ColumnMode.UNKNOWN

/-- `ColumnMetadata` dataclass of the automation `ExcelClient`. -/
structure AColumnMetadata where
  index : Nat
  letter : String
  name : String
  mode : ColumnMode
  bg_color : Option String
deriving DecidableEq, Repr

/-- `ExcelClient.get_push_columns`. -/
def a_get_push_columns (cols : List AColumnMetadata) : List AColumnMetadata :=
  cols.filter (fun c => c.mode = ColumnMode.PUSH)

/-- `ExcelClient.get_pull_columns`. -/
def a_get_pull_columns (cols : List AColumnMetadata) : List AColumnMetadata :=
  cols.filter (fun c => c.mode = ColumnMode.PULL)

/-- The claim's "recognized PUSH blue": an exact reference-blue match or a
successfully parsed color inside the blue tolerance band. -/
def isRecognizedBlue (cellColor : Option String) : Bool :=
  match cellColor with
  | Option.none => false
  | some rgb =>
    BLUE_PUSH_COLORS.any (fun blue => strUpper rgb == strUpper blue) ||
      (match parseRGB6 (stripAlpha rgb) with
       | some (r, g, b) => decide (b > 150 ∧ r < 100 ∧ g < 150)
       | Option.none => false)

/-- The claim's "no-fill or near-white": a missing color, an exact reference
white, or a successfully parsed color with all components above 240. -/
def isWhiteOrNoFill (cellColor : Option String) : Bool :=
  match cellColor with
  | Option.none => true
  | some rgb =>
    WHITE_PULL_COLORS.any (fun white => strUpper rgb == strUpper white) ||
      (match parseRGB6 (stripAlpha rgb) with
       | some (r, g, b) => decide (r > 240 ∧ g > 240 ∧ b > 240)
       | Option.none => false)

/-! ## TokenBucket (services/python-collector/src/lib/rate_limiter.py)

Wall-clock times and token counts are rationals; `time.time()` reads become
explicit `now` arguments. -/

/-- `TokenBucket` state. -/
structure TokenBucket where
  rate : ℚ
  capacity : ℚ
  tokens : ℚ
  last_update : ℚ
deriving DecidableEq, Repr

/-- `TokenBucket.__init__`: the bucket starts full. -/
def TokenBucket.init (rate capacity now : ℚ) : TokenBucket :=
  ⟨rate, capacity, capacity, now⟩

/-- `TokenBucket._refill`: add `elapsed * rate` tokens, capped at capacity. -/
def TokenBucket.refill (b : TokenBucket) (now : ℚ) : TokenBucket :=
  { b with tokens := min b.capacity (b.tokens + (now - b.last_update) * b.rate),
           last_update := now }

/-- The non-blocking core of `TokenBucket.consume`: refill, then subtract if
enough tokens are available (blocking mode sleeps and re-enters `consume`,
i.e. issues another `consume` operation at a later time). -/
def TokenBucket.consume (b : TokenBucket) (now : ℚ) (n : ℕ) : TokenBucket × Bool :=
  let b := b.refill now
  if (n : ℚ) ≤ b.tokens then ({ b with tokens := b.tokens - (n : ℚ) }, true)
  else (b, false)

/-- `TokenBucket.get_available_tokens`: refill, then report. -/
def TokenBucket.get_available_tokens (b : TokenBucket) (now : ℚ) : TokenBucket × ℚ :=
  let b := b.refill now
  (b, b.tokens)

/-- One observable bucket operation, stamped with the wall-clock time at
which it runs. -/
inductive BucketOp where
  | consume (now : ℚ) (n : ℕ)
  | get_available (now : ℚ)
  | refill (now : ℚ)
deriving DecidableEq, Repr

/-- The time stamp of an operation. -/
def BucketOp.time : BucketOp → ℚ
  | BucketOp.consume now _ => now
  | BucketOp.get_available now => now
  | BucketOp.refill now => now

/-- State transition of one operation. -/
def applyOp (b : TokenBucket) : BucketOp → TokenBucket
  | BucketOp.consume now n => (b.consume now n).1
  | BucketOp.get_available now => (b.get_available_tokens now).1
  | BucketOp.refill now => b.refill now

/-- Run a sequence of operations. -/
def runOps (b : TokenBucket) : List BucketOp → TokenBucket
  | [] => b
  | op :: rest => runOps (applyOp b op) rest

/-- Non-negative elapsed time between successive operations: each operation
runs no earlier than the bucket's last update. -/
def timesOk (b : TokenBucket) : List BucketOp → Bool
  | [] => true
  | op :: rest => decide (b.last_update ≤ op.time) && timesOk (applyOp b op) rest

/-- The spec invariant on a bucket state. -/
def bucketInv (b : TokenBucket) : Prop :=
  0 ≤ b.tokens ∧ b.tokens ≤ b.capacity

instance (b : TokenBucket) : Decidable (bucketInv b) := by
  unfold bucketInv
  infer_instance

/-! ## Basic lemmas -/

theorem pyEq_refl (v : Val) : Val.pyEq v v = true := by
  cases v <;> simp [Val.pyEq, Val.toNum]

theorem pyEq_none_truthy (v : Val) (h : v.truthy = true) :
    Val.pyEq Val.none v = false := by
  cases v <;> simp_all [Val.pyEq, Val.toNum, Val.truthy]

theorem dictGet?_dictInsert {α : Type} (k k₁ : String) (v : α) (d : List (String × α)) :
    dictGet? k (dictInsert k₁ v d) = if k₁ = k then some v else dictGet? k d := by
  induction d with
  | nil => simp [dictInsert, dictGet?]
  | cons hd tl ih =>
    by_cases h₁ : hd.1 = k₁
    · by_cases h₂ : k₁ = k <;> simp [dictInsert, dictGet?, h₁, h₂]
    · by_cases h₂ : hd.1 = k
      · have : k₁ ≠ k := fun hk => h₁ (h₂.trans hk.symm)
        simp [dictInsert, dictGet?, h₁, h₂, this, Ne.symm this]
      · simp [dictInsert, dictGet?, h₁, h₂, ih]

theorem dictInsert_idem {α : Type} (k : String) (v : α) (d : List (String × α)) :
    dictInsert k v (dictInsert k v d) = dictInsert k v d := by
  induction d with
  | nil => simp [dictInsert]
  | cons hd tl ih =>
    by_cases h : hd.1 = k <;> simp [dictInsert, h, ih]

theorem pushColMap_lookup_mem (cols : List ColumnMeta) (init : List (String × Nat))
    (k : String) (i : Nat)
    (h : dictGet? k (cols.foldl (fun acc c => dictInsert c.name c.index acc) init) = some i) :
    (∃ col ∈ cols, col.name = k ∧ col.index = i) ∨ dictGet? k init = some i := by
  induction cols generalizing init with
  | nil => exact Or.inr h
  | cons c rest ih =>
    rcases ih (dictInsert c.name c.index init) h with h₁ | h₁
    · obtain ⟨col, hmem, hn, hi⟩ := h₁
      exact Or.inl ⟨col, List.mem_cons_of_mem _ hmem, hn, hi⟩
    · rw [dictGet?_dictInsert] at h₁
      by_cases hk : c.name = k
      · simp [hk] at h₁
        exact Or.inl ⟨c, List.mem_cons_self _ _, hk, h₁⟩
      · simp [hk] at h₁
        exact Or.inr h₁

theorem foldl_dictInsert_not_mem (cols : List ColumnMeta) (init : List (String × Nat))
    (k : String) (h : ∀ col ∈ cols, col.name ≠ k) :
    dictGet? k (cols.foldl (fun acc c => dictInsert c.name c.index acc) init)
      = dictGet? k init := by
  induction cols generalizing init with
  | nil => rfl
  | cons c rest ih =>
    have hr := ih (dictInsert c.name c.index init)
      (fun col hm => h col (List.mem_cons_of_mem _ hm))
    rw [List.foldl_cons, hr, dictGet?_dictInsert]
    simp [h c (List.mem_cons_self _ _)]

theorem pushColMap_lookup_self_aux (cols : List ColumnMeta) :
    ∀ (init : List (String × Nat)) (col : ColumnMeta),
      (cols.map ColumnMeta.name).Nodup → col ∈ cols →
      dictGet? col.name (cols.foldl (fun acc c => dictInsert c.name c.index acc) init)
        = some col.index := by
  induction cols with
  | nil => intro init col _ hmem; cases hmem
  | cons c rest ih =>
    intro init col hnodup hmem
    rw [List.map_cons, List.nodup_cons] at hnodup
    rcases List.mem_cons.mp hmem with h₁ | h₁
    · subst h₁
      rw [List.foldl_cons, foldl_dictInsert_not_mem]
      · rw [dictGet?_dictInsert]
        simp
      · intro col₁ hm₁ hn₁
        exact hnodup.1 (hn₁ ▸ List.mem_map_of_mem ColumnMeta.name hm₁)
    · exact ih (dictInsert c.name c.index init) col hnodup.2 h₁

theorem pushColMap_lookup_self (cols : List ColumnMeta)
    (hnodup : (cols.map ColumnMeta.name).Nodup) (col : ColumnMeta) (hmem : col ∈ cols) :
    dictGet? col.name (pushColMap cols) = some col.index :=
  pushColMap_lookup_self_aux cols [] col hnodup hmem

theorem update_push_columns_untouched (sheet : Sheet) (snap : SnapV2)
    (pushCols : List ColumnMeta) (row : Nat) (data : List (String × Val)) (x : Nat × Nat)
    (hx : ¬(x.1 = row ∧ x.2 ∈ pushCols.map ColumnMeta.index)) :
    (update_push_columns sheet snap pushCols row data).1 x = sheet x
      ∧ (update_push_columns sheet snap pushCols row data).2 x = snap x := by
  induction data generalizing sheet snap with
  | nil => exact ⟨rfl, rfl⟩
  | cons kv rest ih =>
    unfold update_push_columns
    rw [List.foldl_cons]
    cases hlook : dictGet? kv.1 (pushColMap pushCols) with
    | none =>
      simp only [hlook]
      exact ih sheet snap
    | some cidx =>
      simp only [hlook]
      have hmem : cidx ∈ pushCols.map ColumnMeta.index := by
        rcases pushColMap_lookup_mem pushCols [] kv.1 cidx hlook with h | h
        · obtain ⟨col, hm, _, hi⟩ := h
          exact hi ▸ List.mem_map_of_mem ColumnMeta.index hm
        · cases h
      have hne : x ≠ (row, cidx) := by
        intro he
        exact hx ⟨congrArg Prod.fst he, by rw [congrArg Prod.snd he]; exact hmem⟩
      have := ih (Function.update sheet (row, cidx) kv.2)
        (Function.update snap (row, cidx) kv.2)
      rw [update_push_columns] at this
      refine ⟨this.1.trans ?_, this.2.trans ?_⟩ <;>
        exact Function.update_noteq hne _ _

theorem update_push_columns_single (sheet : Sheet) (snap : SnapV2)
    (pushCols : List ColumnMeta) (row : Nat) (nm : String) (v : Val) (cidx : Nat)
    (hlook : dictGet? nm (pushColMap pushCols) = some cidx) :
    update_push_columns sheet snap pushCols row [(nm, v)]
      = (Function.update sheet (row, cidx) v, Function.update snap (row, cidx) v) := by
  unfold update_push_columns
  rw [List.foldl_cons, hlook]
  rfl

theorem update_push_columns_filter (sheet : Sheet) (snap : SnapV2)
    (pushCols : List ColumnMeta) (row : Nat) (data : List (String × Val)) :
    update_push_columns sheet snap pushCols row
        (data.filter (fun kv => (dictGet? kv.1 (pushColMap pushCols)).isSome))
      = update_push_columns sheet snap pushCols row data := by
  induction data generalizing sheet snap with
  | nil => rfl
  | cons kv rest ih =>
    unfold update_push_columns
    cases hlook : dictGet? kv.1 (pushColMap pushCols) with
    | none =>
      rw [List.filter_cons]
      simp only [hlook, Option.isSome_none, Bool.false_eq_true, if_false,
        List.foldl_cons]
      have := ih sheet snap
      rw [update_push_columns, update_push_columns] at this
      exact this
    | some cidx =>
      rw [List.filter_cons]
      simp only [hlook, Option.isSome_some, if_true, List.foldl_cons]
      have := ih (Function.update sheet (row, cidx) kv.2)
        (Function.update snap (row, cidx) kv.2)
      rw [update_push_columns, update_push_columns] at this
      exact this

/-- C10: `update_push_columns` writes only to PUSH-column cells of the given
row (every other sheet cell and snapshot entry is left unchanged), and data
keys that name no PUSH column are silently ignored (dropping them does not
change the result). -/
theorem update_push_columns_frame (sheet : Sheet) (snap : SnapV2)
    (pushCols : List ColumnMeta) (row : Nat) (data : List (String × Val)) :
    (∀ x : Nat × Nat,
      ((update_push_columns sheet snap pushCols row data).1 x = sheet x
        ∧ (update_push_columns sheet snap pushCols row data).2 x = snap x)
      ∨ (x.1 = row ∧ x.2 ∈ pushCols.map ColumnMeta.index))
    ∧ update_push_columns sheet snap pushCols row
        (data.filter (fun kv => (dictGet? kv.1 (pushColMap pushCols)).isSome))
      = update_push_columns sheet snap pushCols row data := by
  constructor
  · intro x
    by_cases hx : x.1 = row ∧ x.2 ∈ pushCols.map ColumnMeta.index
    · exact Or.inr hx
    · exact Or.inl (update_push_columns_untouched sheet snap pushCols row data x hx)
  · exact update_push_columns_filter sheet snap pushCols row data

theorem clear_push_columns_preserves_none (sheet : Sheet) (snap : SnapV2)
    (pushCols : List ColumnMeta) (row : Nat) (x : Nat × Nat)
    (h₁ : sheet x = Val.none) (h₂ : snap x = Val.none) :
    (clear_push_columns sheet snap pushCols row).1 x = Val.none
      ∧ (clear_push_columns sheet snap pushCols row).2 x = Val.none := by
  induction pushCols generalizing sheet snap with
  | nil => exact ⟨h₁, h₂⟩
  | cons col rest ih =>
    unfold clear_push_columns
    rw [List.foldl_cons]
    have hs : Function.update sheet (row, col.index) Val.none x = Val.none := by
      by_cases he : x = (row, col.index)
      · subst he; exact Function.update_same _ _ _
      · rw [Function.update_noteq he]; exact h₁
    have hn : Function.update snap (row, col.index) Val.none x = Val.none := by
      by_cases he : x = (row, col.index)
      · subst he; exact Function.update_same _ _ _
      · rw [Function.update_noteq he]; exact h₂
    have := ih (Function.update sheet (row, col.index) Val.none)
      (Function.update snap (row, col.index) Val.none) hs hn
    rw [clear_push_columns] at this
    exact this

theorem clear_push_columns_mem (sheet : Sheet) (snap : SnapV2)
    (pushCols : List ColumnMeta) (row : Nat) (col : ColumnMeta)
    (hmem : col ∈ pushCols) :
    (clear_push_columns sheet snap pushCols row).1 (row, col.index) = Val.none
      ∧ (clear_push_columns sheet snap pushCols row).2 (row, col.index) = Val.none := by
  induction pushCols generalizing sheet snap with
  | nil => cases hmem
  | cons c rest ih =>
    unfold clear_push_columns
    rw [List.foldl_cons]
    rcases List.mem_cons.mp hmem with h₁ | h₁
    · subst h₁
      have := clear_push_columns_preserves_none
        (Function.update sheet (row, col.index) Val.none)
        (Function.update snap (row, col.index) Val.none) rest row (row, col.index)
        (Function.update_same _ _ _) (Function.update_same _ _ _)
      rw [clear_push_columns] at this
      exact this
    · have := ih (Function.update sheet (row, c.index) Val.none)
        (Function.update snap (row, c.index) Val.none) h₁
      rw [clear_push_columns] at this
      exact this

/-! ## C9: snapshot persistence round-trip -/

theorem val_json_roundtrip (v : Val) : Val.fromJson v.toJson = some v := by
  cases v <;> rfl

theorem cell_json_roundtrip (c : CellSnapshot) : cellFromJson (cellToJson c) = some c := by
  obtain ⟨r, cc, v, t⟩ := c
  simp [cellToJson, cellFromJson, dictGet?, val_json_roundtrip]

theorem cells_json_roundtrip (cells : List (String × CellSnapshot)) :
    cellsFromJson (cells.map (fun kv => (kv.1, cellToJson kv.2))) = some cells := by
  induction cells with
  | nil => rfl
  | cons kv rest ih =>
    rw [List.map_cons]
    unfold cellsFromJson
    rw [cell_json_roundtrip, ih]

/-- C9: saving a sheet snapshot and loading it back reconstructs exactly the
same in-memory snapshot (whatever the sheet name), and loading the same file
a second time leaves the manager's snapshot map unchanged. -/
theorem snapshot_save_load_roundtrip (s : SheetSnapshot) (snapshots : Snapshots)
    (name : String) :
    load_from_disk snapshots name (snapshot_to_json s)
        = some (s, dictInsert name s snapshots)
      ∧ load_from_disk (dictInsert name s snapshots) name (snapshot_to_json s)
        = some (s, dictInsert name s snapshots) := by
  have hparse : snapshot_from_json (snapshot_to_json s) = some s := by
    obtain ⟨nm, cells, lu, ver⟩ := s
    simp [snapshot_to_json, snapshot_from_json, dictGet?, cells_json_roundtrip]
  constructor
  · unfold load_from_disk
    rw [hparse]
  · unfold load_from_disk
    rw [hparse]
    simp [dictInsert_idem]

/-! ## C6: aggregator behavior when every source fails -/

/-- C6 (amended): when every configured source fails or returns nothing,
`aggregate_blockchain_data` still returns a record (never rejects); numeric
`CHAIN_ID` falls back to the known-chain map with default 0, `NATIVE_TOKEN`
and `SYMBOL` fall back to "UNKNOWN" for unknown chains, and `HEALTH_STATUS`
is "UNKNOWN" — not "ERROR". -/
theorem aggregate_all_sources_failed (cname clock : String) (ms : Int) :
    (aggregate_blockchain_data cname [] [] [] clock ms).isSome = true
    ∧ (aggregate_blockchain_data cname [] [] [] clock ms).map (dictGet? "HEALTH_STATUS")
        = some (some (Val.str "UNKNOWN"))
    ∧ (aggregate_blockchain_data cname [] [] [] clock ms).map (dictGet? "CHAIN_ID")
        = some (some (Val.int ((dictGet? (strStrip (strLower cname)) CHAIN_ID_MAP).getD 0)))
    ∧ (aggregate_blockchain_data cname [] [] [] clock ms).map (dictGet? "NATIVE_TOKEN")
        = some (some (Val.str ((dictGet? (strStrip (strLower cname)) NATIVE_TOKEN_MAP).getD "UNKNOWN")))
    ∧ (aggregate_blockchain_data cname [] [] [] clock ms).map (dictGet? "SYMBOL")
        = some (some (Val.str ((dictGet? (strStrip (strLower cname)) NATIVE_TOKEN_MAP).getD "UNKNOWN"))) :=
  ⟨rfl, rfl, rfl, rfl, rfl⟩

/-- C6 counterexample: for the unknown chain "newchain" with every source
failed, the aggregate carries `HEALTH_STATUS = "UNKNOWN"`, not the "ERROR"
the claim requires (numeric and string fallbacks do hold). -/
theorem aggregate_all_fail_health_not_error_cex :
    (aggregate_blockchain_data "newchain" [] [] [] "2025-01-01T00:00:00" 5).map
        (dictGet? "HEALTH_STATUS") = some (some (Val.str "UNKNOWN"))
    ∧ (aggregate_blockchain_data "newchain" [] [] [] "2025-01-01T00:00:00" 5).map
        (dictGet? "HEALTH_STATUS") ≠ some (some (Val.str "ERROR"))
    ∧ (aggregate_blockchain_data "newchain" [] [] [] "2025-01-01T00:00:00" 5).map
        (dictGet? "CHAIN_ID") = some (some (Val.int 0))
    ∧ (aggregate_blockchain_data "newchain" [] [] [] "2025-01-01T00:00:00" 5).map
        (dictGet? "NATIVE_TOKEN") = some (some (Val.str "UNKNOWN")) := by
  refine ⟨rfl, ?_, rfl, rfl⟩
  decide

/-! ## C7: unrecognized header colors -/

/-- C7 (amended): in the automation `ExcelClient`, a header color that is
neither a recognized PUSH blue nor no-fill/near-white is classified UNKNOWN
(without raising), and an UNKNOWN column belongs to neither the PUSH nor the
PULL column set. (`ExcelClientV2` behaves differently; see the
counterexample.) -/
theorem unrecognized_color_unknown (c : Option String)
    (hb : isRecognizedBlue c = false) (hw : isWhiteOrNoFill c = false) :
    detect_column_mode c = ColumnMode.UNKNOWN
    ∧ ∀ (cols : List AColumnMetadata) (col : AColumnMetadata), col ∈ cols →
        col.mode = ColumnMode.UNKNOWN →
        col ∉ a_get_push_columns cols ∧ col ∉ a_get_pull_columns cols := by
  constructor
  · cases c with
    | none => simp [isWhiteOrNoFill] at hw
    | some rgb =>
      simp only [isRecognizedBlue, Bool.or_eq_false_iff] at hb
      simp only [isWhiteOrNoFill, Bool.or_eq_false_iff] at hw
      simp only [detect_column_mode, hb.1, hw.1, Bool.false_eq_true, if_false]
      cases hp : parseRGB6 (stripAlpha rgb) with
      | none => rfl
      | some rgbTriple =>
        obtain ⟨r, g, b⟩ := rgbTriple
        have hb₂ := hb.2
        have hw₂ := hw.2
        rw [hp] at hb₂ hw₂
        simp only [decide_eq_false_iff_not] at hb₂ hw₂
        simp [hb₂, hw₂]
  · intro cols col hmem hmode
    constructor
    · intro hin
      rw [a_get_push_columns, List.mem_filter] at hin
      rw [hmode] at hin
      simp at hin
    · intro hin
      rw [a_get_pull_columns, List.mem_filter] at hin
      rw [hmode] at hin
      simp at hin

theorem unrecognized_color_unknown_witness :
    isRecognizedBlue (some "FFFF0000") = false
    ∧ isWhiteOrNoFill (some "FFFF0000") = false
    ∧ detect_column_mode (some "FFFF0000") = ColumnMode.UNKNOWN :=
  ⟨by decide, by decide,
   (unrecognized_color_unknown (some "FFFF0000") (by decide) (by decide)).1⟩

/-- C7 counterexample: `ExcelClientV2.get_column_metadata` classifies a
header with the unrecognized red fill FFFF0000 (neither a recognized PUSH
blue nor no-fill/near-white) as "PULL", so the column lands in the PULL
watch set and no column is ever assigned "UNKNOWN". -/
theorem v2_unrecognized_color_pull_cex :
    isRecognizedBlue (some "FFFF0000") = false
    ∧ isWhiteOrNoFill (some "FFFF0000") = false
    ∧ get_column_metadata [⟨some "X", some "FFFF0000"⟩] = [⟨1, "X", "PULL"⟩]
    ∧ (⟨1, "X", "PULL"⟩ : ColumnMeta)
        ∈ get_pull_columns (get_column_metadata [⟨some "X", some "FFFF0000"⟩])
    ∧ ∀ col ∈ get_column_metadata [⟨some "X", some "FFFF0000"⟩],
        col.type ≠ "UNKNOWN" := by
  decide

/-! ## Change-detection lemmas -/

theorem detectCellsRow_nochange (sheet : Sheet) (row : Nat) (cols : List ColumnMeta)
    (chs : List ChangeRec) (snap : SnapV2)
    (h : ∀ col ∈ cols, Val.pyEq (sheet (row, col.index)) (snap (row, col.index)) = true) :
    detectCellsRow sheet row cols (chs, snap) = (chs, snap) := by
  induction cols with
  | nil => rfl
  | cons col rest ih =>
    unfold detectCellsRow
    simp only [h col (List.mem_cons_self _ _), if_true]
    exact ih (fun c hc => h c (List.mem_cons_of_mem _ hc))

theorem detectCellsRow_preserves_pyEq (sheet : Sheet) (row : Nat)
    (cols : List ColumnMeta) (chs : List ChangeRec) (snap : SnapV2) (x : Nat × Nat)
    (h : Val.pyEq (sheet x) (snap x) = true) :
    Val.pyEq (sheet x) ((detectCellsRow sheet row cols (chs, snap)).2 x) = true := by
  induction cols generalizing chs snap with
  | nil => exact h
  | cons col rest ih =>
    unfold detectCellsRow
    by_cases hc : Val.pyEq (sheet (row, col.index)) (snap (row, col.index)) = true
    · simp only [hc, if_true]
      exact ih chs snap h
    · rw [Bool.not_eq_true] at hc
      simp only [hc, Bool.false_eq_true, if_false]
      apply ih
      by_cases he : x = (row, col.index)
      · subst he
        rw [Function.update_same]
        exact pyEq_refl _
      · rw [Function.update_noteq he]
        exact h

theorem detectCellsRow_post_pyEq (sheet : Sheet) (row : Nat) (cols : List ColumnMeta)
    (chs : List ChangeRec) (snap : SnapV2) (col : ColumnMeta) (hmem : col ∈ cols) :
    Val.pyEq (sheet (row, col.index))
      ((detectCellsRow sheet row cols (chs, snap)).2 (row, col.index)) = true := by
  induction cols generalizing chs snap with
  | nil => cases hmem
  | cons c rest ih =>
    unfold detectCellsRow
    rcases List.mem_cons.mp hmem with h₁ | h₁
    · subst h₁
      by_cases hc : Val.pyEq (sheet (row, col.index)) (snap (row, col.index)) = true
      · simp only [hc, if_true]
        exact detectCellsRow_preserves_pyEq sheet row rest chs snap _ hc
      · rw [Bool.not_eq_true] at hc
        simp only [hc, Bool.false_eq_true, if_false]
        apply detectCellsRow_preserves_pyEq
        rw [Function.update_same]
        exact pyEq_refl _
    · by_cases hc : Val.pyEq (sheet (row, c.index)) (snap (row, c.index)) = true
      · simp only [hc, if_true]
        exact ih chs snap h₁
      · rw [Bool.not_eq_true] at hc
        simp only [hc, Bool.false_eq_true, if_false]
        exact ih _ _ h₁

theorem detectRows_nochange (sheet : Sheet) (cols : List ColumnMeta)
    (rows : List Nat) (chs : List ChangeRec) (snap : SnapV2)
    (h : ∀ row ∈ rows, ∀ col ∈ cols,
      Val.pyEq (sheet (row, col.index)) (snap (row, col.index)) = true) :
    detectRows sheet cols rows (chs, snap) = (chs, snap) := by
  induction rows with
  | nil => rfl
  | cons row rest ih =>
    unfold detectRows
    rw [detectCellsRow_nochange sheet row cols chs snap
      (fun c hc => h row (List.mem_cons_self _ _) c hc)]
    exact ih (fun r hr c hc => h r (List.mem_cons_of_mem _ hr) c hc)

theorem detectRows_preserves_pyEq (sheet : Sheet) (cols : List ColumnMeta)
    (rows : List Nat) (chs : List ChangeRec) (snap : SnapV2) (x : Nat × Nat)
    (h : Val.pyEq (sheet x) (snap x) = true) :
    Val.pyEq (sheet x) ((detectRows sheet cols rows (chs, snap)).2 x) = true := by
  induction rows generalizing chs snap with
  | nil => exact h
  | cons row rest ih =>
    unfold detectRows
    have h₁ := detectCellsRow_preserves_pyEq sheet row cols chs snap x h
    exact ih _ _ h₁

theorem detectRows_post_pyEq (sheet : Sheet) (cols : List ColumnMeta)
    (rows : List Nat) (chs : List ChangeRec) (snap : SnapV2) (row : Nat)
    (col : ColumnMeta) (hrow : row ∈ rows) (hcol : col ∈ cols) :
    Val.pyEq (sheet (row, col.index))
      ((detectRows sheet cols rows (chs, snap)).2 (row, col.index)) = true := by
  induction rows generalizing chs snap with
  | nil => cases hrow
  | cons r rest ih =>
    unfold detectRows
    rcases List.mem_cons.mp hrow with h₁ | h₁
    · subst h₁
      have h₂ := detectCellsRow_post_pyEq sheet row cols chs snap col hcol
      exact detectRows_preserves_pyEq sheet cols rest _ _ _ h₂
    · exact ih _ _ h₁

theorem detectCellsRow_changes_inv (sheet : Sheet) (row : Nat)
    (cols : List ColumnMeta) (chs : List ChangeRec) (snap : SnapV2)
    (h : ∀ ch ∈ chs, snap (ch.row, ch.column) = sheet (ch.row, ch.column)
      ∧ ch.new_value = sheet (ch.row, ch.column)) :
    ∀ ch ∈ (detectCellsRow sheet row cols (chs, snap)).1,
      (detectCellsRow sheet row cols (chs, snap)).2 (ch.row, ch.column)
          = sheet (ch.row, ch.column)
        ∧ ch.new_value = sheet (ch.row, ch.column) := by
  induction cols generalizing chs snap with
  | nil => exact h
  | cons col rest ih =>
    unfold detectCellsRow
    by_cases hc : Val.pyEq (sheet (row, col.index)) (snap (row, col.index)) = true
    · simp only [hc, if_true]
      exact ih chs snap h
    · rw [Bool.not_eq_true] at hc
      simp only [hc, Bool.false_eq_true, if_false]
      apply ih
      intro ch hch
      rcases List.mem_append.mp hch with h₁ | h₁
      · obtain ⟨hs, hn⟩ := h ch h₁
        refine ⟨?_, hn⟩
        by_cases he : (ch.row, ch.column) = (row, col.index)
        · rw [he, Function.update_same]
        · rw [Function.update_noteq he]
          exact hs
      · rw [List.mem_singleton] at h₁
        subst h₁
        exact ⟨Function.update_same _ _ _, rfl⟩

theorem detectRows_changes_inv (sheet : Sheet) (cols : List ColumnMeta)
    (rows : List Nat) (chs : List ChangeRec) (snap : SnapV2)
    (h : ∀ ch ∈ chs, snap (ch.row, ch.column) = sheet (ch.row, ch.column)
      ∧ ch.new_value = sheet (ch.row, ch.column)) :
    ∀ ch ∈ (detectRows sheet cols rows (chs, snap)).1,
      (detectRows sheet cols rows (chs, snap)).2 (ch.row, ch.column)
          = sheet (ch.row, ch.column)
        ∧ ch.new_value = sheet (ch.row, ch.column) := by
  induction rows generalizing chs snap with
  | nil => exact h
  | cons row rest ih =>
    unfold detectRows
    exact ih _ _ (detectCellsRow_changes_inv sheet row cols chs snap h)

/-! ## C3: first observation of a sheet -/

/-- C3 (amended): `SnapshotManager.detect_changes` with no prior snapshot
silently creates one from the current data (cell map of the current data,
version 1) and returns an empty change list.
(`ExcelClientV2.detect_changes_in_pull_columns` behaves differently on its
first observation; see the counterexample.) -/
theorem detect_changes_no_prior_snapshot (snapshots : Snapshots) (sheetName : String)
    (currentData : List RowData) (columnMapping : List (String × Nat))
    (startRow : Nat) (columnsToWatch : Option (List String)) (timestamp : String)
    (h : dictGet? sheetName snapshots = Option.none) :
    detect_changes snapshots sheetName currentData columnMapping startRow
        columnsToWatch timestamp
      = ([], dictInsert sheetName
          ⟨sheetName, snapshotCells currentData columnMapping startRow timestamp,
           timestamp, 1⟩ snapshots)
    ∧ dictGet? sheetName
        (detect_changes snapshots sheetName currentData columnMapping startRow
          columnsToWatch timestamp).2
      = some ⟨sheetName, snapshotCells currentData columnMapping startRow timestamp,
          timestamp, 1⟩ := by
  have hmain : detect_changes snapshots sheetName currentData columnMapping startRow
      columnsToWatch timestamp
      = ([], dictInsert sheetName
          ⟨sheetName, snapshotCells currentData columnMapping startRow timestamp,
           timestamp, 1⟩ snapshots) := by
    unfold detect_changes create_snapshot
    rw [h]
  refine ⟨hmain, ?_⟩
  rw [hmain, dictGet?_dictInsert]
  simp

theorem detect_changes_no_prior_snapshot_witness :
    dictGet? "BLOCKCHAINS" ([] : Snapshots) = Option.none
    ∧ detect_changes [] "BLOCKCHAINS" [[("NAME", Val.str "polygon")]] [("NAME", 0)]
        2 Option.none "t1"
      = ([], [("BLOCKCHAINS",
          ⟨"BLOCKCHAINS", [("2_1", ⟨2, 1, Val.str "polygon", "t1"⟩)], "t1", 1⟩)]) := by
  constructor
  · rfl
  · have h := detect_changes_no_prior_snapshot [] "BLOCKCHAINS"
      [[("NAME", Val.str "polygon")]] [("NAME", 0)] 2 Option.none "t1" rfl
    rw [h.1]
    rfl

/-- C3 counterexample: on its very first observation of a sheet (no prior
snapshot), `ExcelClientV2.detect_changes_in_pull_columns` reports the
existing cell content as a change with `old_value = None` instead of
returning an empty change list. -/
theorem first_observation_reported_v2_cex :
    (detect_changes_in_pull_columns
        (fun x => if x = (2, 1) then Val.str "polygon" else Val.none)
        (fun _ => Val.none)
        [⟨some "NAME", Option.none⟩] 2 100 2).1
      = [⟨2, 1, "NAME", Val.none, Val.str "polygon"⟩]
    ∧ (detect_changes_in_pull_columns
        (fun x => if x = (2, 1) then Val.str "polygon" else Val.none)
        (fun _ => Val.none)
        [⟨some "NAME", Option.none⟩] 2 100 2).1 ≠ [] := by
  constructor
  · rfl
  · decide

/-! ## C4: idempotence of change detection -/

/-- C4 (amended): `ExcelClientV2`'s change detection is idempotent because
the scan itself advances the snapshot: a second scan of the same sheet state
against the snapshot produced by a first scan detects no changes and leaves
the snapshot unchanged. (`SnapshotManager.detect_changes` is not idempotent
in this sense; see the counterexample.) -/
theorem detect_changes_v2_idempotent (sheet : Sheet) (snap : SnapV2)
    (cols : List ColumnMeta) (rows : List Nat) :
    detectChangesInCols sheet (detectChangesInCols sheet snap cols rows).2 cols rows
      = ([], (detectChangesInCols sheet snap cols rows).2) := by
  unfold detectChangesInCols
  apply detectRows_nochange
  intro row hrow col hcol
  exact detectRows_post_pyEq sheet cols rows [] snap row col hrow hcol

/-- C4 counterexample: `SnapshotManager.detect_changes` does not modify the
stored snapshot, so with an existing snapshot and unchanged current data the
second of two successive calls returns the same non-empty change list, not
an empty one. -/
theorem snapshot_manager_not_idempotent_cex :
    (detect_changes
      (detect_changes
        [("S", ⟨"S", [("2_1", ⟨2, 1, Val.str "a", "t0"⟩)], "t0", 1⟩)]
        "S" [[("NAME", Val.str "b")]] [("NAME", 0)] 2 Option.none "t1").2
      "S" [[("NAME", Val.str "b")]] [("NAME", 0)] 2 Option.none "t2").1
      = [⟨"S", 2, 1, "NAME", Val.str "a", Val.str "b", "t2"⟩]
    ∧ (detect_changes
      (detect_changes
        [("S", ⟨"S", [("2_1", ⟨2, 1, Val.str "a", "t0"⟩)], "t0", 1⟩)]
        "S" [[("NAME", Val.str "b")]] [("NAME", 0)] 2 Option.none "t2").2
      "S" [[("NAME", Val.str "b")]] [("NAME", 0)] 2 Option.none "t2").1 ≠ [] := by
  constructor
  · rfl
  · decide

/-! ## C5: snapshot state on write failure -/

/-- C5 (amended): the snapshot entry of a detected PULL change is advanced
to the change's new value during detection itself — before any spreadsheet
write is attempted — so after a failed write the entry equals the sheet's
current value and the scan comparison for that cell already holds; the
change is not re-detected on the next tick. -/
theorem pull_snapshot_advanced_at_detection (sheet : Sheet) (snap : SnapV2)
    (cols : List ColumnMeta) (rows : List Nat) (ch : ChangeRec)
    (hmem : ch ∈ (detectChangesInCols sheet snap cols rows).1) :
    (detectChangesInCols sheet snap cols rows).2 (ch.row, ch.column) = ch.new_value
    ∧ ch.new_value = sheet (ch.row, ch.column)
    ∧ Val.pyEq (sheet (ch.row, ch.column))
        ((detectChangesInCols sheet snap cols rows).2 (ch.row, ch.column)) = true := by
  have h := detectRows_changes_inv sheet cols rows [] snap (by intro ch hch; cases hch)
    ch hmem
  refine ⟨h.1.trans h.2.symm, h.2, ?_⟩
  show Val.pyEq (sheet (ch.row, ch.column))
    ((detectRows sheet cols rows ([], snap)).2 (ch.row, ch.column)) = true
  rw [h.1]
  exact pyEq_refl _

theorem pull_snapshot_advanced_at_detection_witness :
    (⟨2, 1, "NAME", Val.str "polygon", Val.str "arbitrum"⟩ : ChangeRec)
        ∈ (detectChangesInCols
            (fun x => if x = (2, 1) then Val.str "arbitrum" else Val.none)
            (fun x => if x = (2, 1) then Val.str "polygon" else Val.none)
            [⟨1, "NAME", "PULL"⟩] [2]).1
    ∧ (detectChangesInCols
          (fun x => if x = (2, 1) then Val.str "arbitrum" else Val.none)
          (fun x => if x = (2, 1) then Val.str "polygon" else Val.none)
          [⟨1, "NAME", "PULL"⟩] [2]).2 (2, 1) = Val.str "arbitrum" := by
  constructor
  · decide
  · exact (pull_snapshot_advanced_at_detection
      (fun x => if x = (2, 1) then Val.str "arbitrum" else Val.none)
      (fun x => if x = (2, 1) then Val.str "polygon" else Val.none)
      [⟨1, "NAME", "PULL"⟩] [2]
      ⟨2, 1, "NAME", Val.str "polygon", Val.str "arbitrum"⟩ (by decide)).1

/-- C5 counterexample: with a detected NAME change from "polygon" to
"arbitrum" whose spreadsheet write then fails (the handler catches the
exception and changes nothing), the snapshot entry for the changed cell HAS
been updated to the new value, and the next tick's detection pass finds no
change to retry. -/
theorem snapshot_updated_despite_write_failure_cex :
    (tickPullPassFailingWrite [⟨1, "NAME", "PULL"⟩]
        (fun x => if x = (2, 1) then Val.str "arbitrum" else Val.none)
        (fun x => if x = (2, 1) then Val.str "polygon" else Val.none) [2]).2
      = [⟨2, 1, "NAME", Val.str "polygon", Val.str "arbitrum"⟩]
    ∧ ((tickPullPassFailingWrite [⟨1, "NAME", "PULL"⟩]
        (fun x => if x = (2, 1) then Val.str "arbitrum" else Val.none)
        (fun x => if x = (2, 1) then Val.str "polygon" else Val.none) [2]).1).2 (2, 1)
      = Val.str "arbitrum"
    ∧ (detectChangesInCols
        (fun x => if x = (2, 1) then Val.str "arbitrum" else Val.none)
        ((tickPullPassFailingWrite [⟨1, "NAME", "PULL"⟩]
          (fun x => if x = (2, 1) then Val.str "arbitrum" else Val.none)
          (fun x => if x = (2, 1) then Val.str "polygon" else Val.none) [2]).1).2
        [⟨1, "NAME", "PULL"⟩] [2]).1 = [] := by
  refine ⟨by decide, by decide, by decide⟩

/-! ## Single-edit scans (for restoration and clear-on-delete) -/

theorem detectCellsRow_single (sheet : Sheet) (row : Nat) (cols : List ColumnMeta)
    (col₀ : ColumnMeta) (chs : List ChangeRec) (snap : SnapV2)
    (hnodup : (cols.map ColumnMeta.index).Nodup)
    (hmem : col₀ ∈ cols)
    (hagree : ∀ col ∈ cols, col.index ≠ col₀.index →
      Val.pyEq (sheet (row, col.index)) (snap (row, col.index)) = true)
    (hdiff : Val.pyEq (sheet (row, col₀.index)) (snap (row, col₀.index)) = false) :
    detectCellsRow sheet row cols (chs, snap)
      = (chs ++ [⟨row, col₀.index, col₀.name, snap (row, col₀.index),
            sheet (row, col₀.index)⟩],
         Function.update snap (row, col₀.index) (sheet (row, col₀.index))) := by
  induction cols generalizing chs with
  | nil => cases hmem
  | cons c rest ih =>
    rw [List.map_cons, List.nodup_cons] at hnodup
    unfold detectCellsRow
    rcases List.mem_cons.mp hmem with h₁ | h₁
    · subst h₁
      simp only [hdiff, Bool.false_eq_true, if_false]
      apply detectCellsRow_nochange
      intro c hc
      have hne : c.index ≠ col₀.index := by
        intro he
        exact hnodup.1 (he ▸ List.mem_map_of_mem ColumnMeta.index hc)
      rw [Function.update_noteq (fun he => hne (congrArg Prod.snd he))]
      exact hagree c (List.mem_cons_of_mem _ hc) hne
    · have hne : c.index ≠ col₀.index := by
        intro he
        exact hnodup.1 (he ▸ List.mem_map_of_mem ColumnMeta.index h₁)
      simp only [hagree c (List.mem_cons_self _ _) hne, if_true]
      exact ih chs hnodup.2 h₁
        (fun col hc hni => hagree col (List.mem_cons_of_mem _ hc) hni)

theorem detectRows_single (sheet : Sheet) (cols : List ColumnMeta)
    (rows : List Nat) (col₀ : ColumnMeta) (r : Nat) (snap : SnapV2)
    (hnodupIdx : (cols.map ColumnMeta.index).Nodup)
    (hnodupRows : rows.Nodup)
    (hr : r ∈ rows) (hcol : col₀ ∈ cols)
    (hagree : ∀ row ∈ rows, ∀ col ∈ cols, ¬(row = r ∧ col.index = col₀.index) →
      Val.pyEq (sheet (row, col.index)) (snap (row, col.index)) = true)
    (hdiff : Val.pyEq (sheet (r, col₀.index)) (snap (r, col₀.index)) = false) :
    detectRows sheet cols rows ([], snap)
      = ([⟨r, col₀.index, col₀.name, snap (r, col₀.index), sheet (r, col₀.index)⟩],
         Function.update snap (r, col₀.index) (sheet (r, col₀.index))) := by
  induction rows with
  | nil => cases hr
  | cons row rest ih =>
    rw [List.nodup_cons] at hnodupRows
    unfold detectRows
    rcases List.mem_cons.mp hr with h₁ | h₁
    · subst h₁
      rw [detectCellsRow_single sheet r cols col₀ [] snap hnodupIdx hcol
        (fun col hc hne => hagree r (List.mem_cons_self _ _) col hc
          (fun hand => hne hand.2)) hdiff]
      rw [List.nil_append]
      apply detectRows_nochange
      intro row₁ hrow₁ col hc
      have hner : row₁ ≠ r := fun he => hnodupRows.1 (he ▸ hrow₁)
      rw [Function.update_noteq (fun he => hner (congrArg Prod.fst he))]
      exact hagree row₁ (List.mem_cons_of_mem _ hrow₁) col hc
        (fun hand => hner hand.1)
    · have hner : row ≠ r := fun he => hnodupRows.1 (he ▸ h₁)
      rw [detectCellsRow_nochange sheet row cols [] snap
        (fun col hc => hagree row (List.mem_cons_self _ _) col hc
          (fun hand => hner hand.1))]
      exact ih hnodupRows.2 h₁
        (fun row₁ hrow₁ col hc hn => hagree row₁ (List.mem_cons_of_mem _ hrow₁) col hc hn)

/-! ## C1: PUSH restoration -/

/-- C1: if a single watched PUSH cell holding snapshot value V has been
overwritten on the sheet with a different value V2 (all other watched cells
agree with the snapshot), then the next PUSH watch pass produces exactly the
change with `old_value = V` and `new_value = V2`, and after the pass the cell
has been rewritten to V and the snapshot entry holds V — not the edit V2. -/
theorem push_restoration_correct (pushCols : List ColumnMeta) (rows : List Nat)
    (sheet : Sheet) (snap : SnapV2) (col₀ : ColumnMeta) (r : Nat)
    (hnodupIdx : (pushCols.map ColumnMeta.index).Nodup)
    (hnodupName : (pushCols.map ColumnMeta.name).Nodup)
    (hnodupRows : rows.Nodup)
    (hr : r ∈ rows) (hcol : col₀ ∈ pushCols)
    (hagree : ∀ row ∈ rows, ∀ col ∈ pushCols, ¬(row = r ∧ col.index = col₀.index) →
      Val.pyEq (sheet (row, col.index)) (snap (row, col.index)) = true)
    (hdiff : Val.pyEq (sheet (r, col₀.index)) (snap (r, col₀.index)) = false) :
    (tickPushPass pushCols sheet snap rows).2
      = [⟨r, col₀.index, col₀.name, snap (r, col₀.index), sheet (r, col₀.index)⟩]
    ∧ ((tickPushPass pushCols sheet snap rows).1).1 (r, col₀.index)
      = snap (r, col₀.index)
    ∧ ((tickPushPass pushCols sheet snap rows).1).2 (r, col₀.index)
      = snap (r, col₀.index) := by
  have hdet : detectChangesInCols sheet snap pushCols rows
      = ([⟨r, col₀.index, col₀.name, snap (r, col₀.index), sheet (r, col₀.index)⟩],
         Function.update snap (r, col₀.index) (sheet (r, col₀.index))) :=
    detectRows_single sheet pushCols rows col₀ r snap hnodupIdx hnodupRows hr hcol
      hagree hdiff
  unfold tickPushPass
  rw [hdet]
  simp only [List.foldl_cons, List.foldl_nil]
  unfold handle_push_change
  rw [update_push_columns_single _ _ pushCols r col₀.name (snap (r, col₀.index))
    col₀.index (pushColMap_lookup_self pushCols hnodupName col₀ hcol)]
  refine ⟨by trivial, ?_, ?_⟩ <;> exact Function.update_same _ _ _

/-! ## C2: clear-on-delete -/

/-- C2: if the watched PULL key cell NAME of a row goes from a truthy
snapshot value to an empty sheet value (all other watched PULL cells agree
with the snapshot), then within the same watcher tick the change is detected
and every PUSH column cell of that row is cleared, on the sheet and in the
snapshot. -/
theorem clear_on_name_delete (fetch : Val → List (String × Val))
    (pullCols pushCols : List ColumnMeta) (rows : List Nat)
    (sheet : Sheet) (snap : SnapV2) (col₀ : ColumnMeta) (r : Nat)
    (hnodupIdx : (pullCols.map ColumnMeta.index).Nodup)
    (hnodupRows : rows.Nodup)
    (hr : r ∈ rows) (hcol : col₀ ∈ pullCols) (hname : col₀.name = "NAME")
    (hagree : ∀ row ∈ rows, ∀ col ∈ pullCols, ¬(row = r ∧ col.index = col₀.index) →
      Val.pyEq (sheet (row, col.index)) (snap (row, col.index)) = true)
    (hempty : sheet (r, col₀.index) = Val.none)
    (htruthy : (snap (r, col₀.index)).truthy = true) :
    (tickPullPass fetch pullCols pushCols sheet snap rows).2
      = [⟨r, col₀.index, "NAME", snap (r, col₀.index), Val.none⟩]
    ∧ ∀ col ∈ pushCols,
      ((tickPullPass fetch pullCols pushCols sheet snap rows).1).1 (r, col.index)
          = Val.none
      ∧ ((tickPullPass fetch pullCols pushCols sheet snap rows).1).2 (r, col.index)
          = Val.none := by
  have hdiff : Val.pyEq (sheet (r, col₀.index)) (snap (r, col₀.index)) = false := by
    rw [hempty]
    exact pyEq_none_truthy _ htruthy
  have hdet : detectChangesInCols sheet snap pullCols rows
      = ([⟨r, col₀.index, col₀.name, snap (r, col₀.index), sheet (r, col₀.index)⟩],
         Function.update snap (r, col₀.index) (sheet (r, col₀.index))) :=
    detectRows_single sheet pullCols rows col₀ r snap hnodupIdx hnodupRows hr hcol
      hagree hdiff
  rw [hname, hempty] at hdet
  unfold tickPullPass
  rw [hdet]
  simp only [List.foldl_cons, List.foldl_nil]
  have hcl : handle_change fetch pushCols
      (sheet, Function.update snap (r, col₀.index) Val.none)
      ⟨r, col₀.index, "NAME", snap (r, col₀.index), Val.none⟩
      = clear_push_columns sheet (Function.update snap (r, col₀.index) Val.none)
          pushCols r := by
    unfold handle_change
    rw [if_pos rfl, if_neg (by decide : ¬(Val.truthy Val.none = true)),
      if_pos htruthy]
  rw [hcl]
  refine ⟨by trivial, ?_⟩
  intro col hc
  exact clear_push_columns_mem sheet _ pushCols r col hc

theorem push_restoration_correct_witness :
    (tickPushPass [⟨1, "CHAIN_ID", "PUSH"⟩]
        (fun x => if x = (5, 1) then Val.int 999 else Val.none)
        (fun x => if x = (5, 1) then Val.int 137 else Val.none) [5]).2
      = [⟨5, 1, "CHAIN_ID", Val.int 137, Val.int 999⟩]
    ∧ ((tickPushPass [⟨1, "CHAIN_ID", "PUSH"⟩]
        (fun x => if x = (5, 1) then Val.int 999 else Val.none)
        (fun x => if x = (5, 1) then Val.int 137 else Val.none) [5]).1).1 (5, 1)
      = Val.int 137
    ∧ ((tickPushPass [⟨1, "CHAIN_ID", "PUSH"⟩]
        (fun x => if x = (5, 1) then Val.int 999 else Val.none)
        (fun x => if x = (5, 1) then Val.int 137 else Val.none) [5]).1).2 (5, 1)
      = Val.int 137 :=
  push_restoration_correct [⟨1, "CHAIN_ID", "PUSH"⟩] [5]
    (fun x => if x = (5, 1) then Val.int 999 else Val.none)
    (fun x => if x = (5, 1) then Val.int 137 else Val.none)
    ⟨1, "CHAIN_ID", "PUSH"⟩ 5 (by decide) (by decide) (by decide) (by decide)
    (by decide) (by decide) (by decide)

theorem clear_on_name_delete_witness :
    (tickPullPass (fun _ => []) [⟨2, "NAME", "PULL"⟩]
        [⟨1, "CHAIN_ID", "PUSH"⟩, ⟨3, "TVL_USD", "PUSH"⟩]
        (fun x => if x = (5, 1) then Val.int 137 else
          if x = (5, 3) then Val.int 42 else Val.none)
        (fun x => if x = (5, 2) then Val.str "polygon" else
          if x = (5, 1) then Val.int 137 else
          if x = (5, 3) then Val.int 42 else Val.none) [5]).2
      = [⟨5, 2, "NAME", Val.str "polygon", Val.none⟩]
    ∧ ∀ col ∈ [(⟨1, "CHAIN_ID", "PUSH"⟩ : ColumnMeta), ⟨3, "TVL_USD", "PUSH"⟩],
      ((tickPullPass (fun _ => []) [⟨2, "NAME", "PULL"⟩]
          [⟨1, "CHAIN_ID", "PUSH"⟩, ⟨3, "TVL_USD", "PUSH"⟩]
          (fun x => if x = (5, 1) then Val.int 137 else
            if x = (5, 3) then Val.int 42 else Val.none)
          (fun x => if x = (5, 2) then Val.str "polygon" else
            if x = (5, 1) then Val.int 137 else
            if x = (5, 3) then Val.int 42 else Val.none) [5]).1).1 (5, col.index)
          = Val.none
      ∧ ((tickPullPass (fun _ => []) [⟨2, "NAME", "PULL"⟩]
          [⟨1, "CHAIN_ID", "PUSH"⟩, ⟨3, "TVL_USD", "PUSH"⟩]
          (fun x => if x = (5, 1) then Val.int 137 else
            if x = (5, 3) then Val.int 42 else Val.none)
          (fun x => if x = (5, 2) then Val.str "polygon" else
            if x = (5, 1) then Val.int 137 else
            if x = (5, 3) then Val.int 42 else Val.none) [5]).1).2 (5, col.index)
          = Val.none :=
  clear_on_name_delete (fun _ => []) [⟨2, "NAME", "PULL"⟩]
    [⟨1, "CHAIN_ID", "PUSH"⟩, ⟨3, "TVL_USD", "PUSH"⟩] [5]
    (fun x => if x = (5, 1) then Val.int 137 else
      if x = (5, 3) then Val.int 42 else Val.none)
    (fun x => if x = (5, 2) then Val.str "polygon" else
      if x = (5, 1) then Val.int 137 else
      if x = (5, 3) then Val.int 42 else Val.none)
    ⟨2, "NAME", "PULL"⟩ 5 (by decide) (by decide) (by decide) (by decide) rfl
    (by decide) (by decide) (by decide)

/-! ## C8: token bucket invariant -/

theorem applyOp_rate (b : TokenBucket) (op : BucketOp) :
    (applyOp b op).rate = b.rate := by
  cases op with
  | consume now n =>
    show (b.consume now n).1.rate = b.rate
    unfold TokenBucket.consume
    dsimp only
    split <;> rfl
  | get_available now => rfl
  | refill now => rfl

theorem refill_inv (b : TokenBucket) (now : ℚ) (hrate : 0 ≤ b.rate)
    (hinv : bucketInv b) (ht : b.last_update ≤ now) :
    bucketInv (b.refill now) := by
  obtain ⟨h₀, h₁⟩ := hinv
  unfold bucketInv TokenBucket.refill
  constructor
  · exact le_min (h₀.trans h₁)
      (add_nonneg h₀ (mul_nonneg (sub_nonneg.mpr ht) hrate))
  · exact min_le_left _ _

theorem refill_never_decreases (b : TokenBucket) (now : ℚ) (hrate : 0 ≤ b.rate)
    (hcap : b.tokens ≤ b.capacity) (ht : b.last_update ≤ now) :
    b.tokens ≤ (b.refill now).tokens := by
  unfold TokenBucket.refill
  exact le_min hcap
    (le_add_of_nonneg_right (mul_nonneg (sub_nonneg.mpr ht) hrate))

theorem applyOp_inv (b : TokenBucket) (op : BucketOp) (hrate : 0 ≤ b.rate)
    (hinv : bucketInv b) (ht : b.last_update ≤ op.time) :
    bucketInv (applyOp b op) := by
  cases op with
  | consume now n =>
    have hr := refill_inv b now hrate hinv ht
    unfold applyOp TokenBucket.consume
    by_cases h : (n : ℚ) ≤ (b.refill now).tokens
    · simp only [h, if_true]
      constructor
      · exact sub_nonneg.mpr h
      · exact le_trans (sub_le_self _ (Nat.cast_nonneg n)) hr.2
    · simp only [h, if_false]
      exact hr
  | get_available now => exact refill_inv b now hrate hinv ht
  | refill now => exact refill_inv b now hrate hinv ht

theorem runOps_inv (ops : List BucketOp) (b : TokenBucket) (hrate : 0 ≤ b.rate)
    (hinv : bucketInv b) (hok : timesOk b ops = true) :
    bucketInv (runOps b ops) := by
  induction ops generalizing b with
  | nil => exact hinv
  | cons op rest ih =>
    unfold timesOk at hok
    rw [Bool.and_eq_true, decide_eq_true_iff] at hok
    exact ih (applyOp b op) ((applyOp_rate b op).symm ▸ hrate)
      (applyOp_inv b op hrate hinv hok.1) hok.2

theorem timesOk_append_left (pre suf : List BucketOp) (b : TokenBucket)
    (hok : timesOk b (pre ++ suf) = true) : timesOk b pre = true := by
  induction pre generalizing b with
  | nil => rfl
  | cons op rest ih =>
    rw [List.cons_append] at hok
    unfold timesOk at hok ⊢
    rw [Bool.and_eq_true] at hok ⊢
    exact ⟨hok.1, ih (applyOp b op) hok.2⟩

/-- C8: for a token bucket with positive rate and capacity, along any
operation sequence with non-negative elapsed time between operations, the
invariant `0 ≤ tokens ≤ capacity` holds at every observation point (after
every prefix of the sequence), and a refill never decreases the token
count. -/
theorem token_bucket_invariant (R C t₀ : ℚ) (pre suf : List BucketOp)
    (hR : 0 < R) (hC : 0 < C)
    (hok : timesOk (TokenBucket.init R C t₀) (pre ++ suf) = true) :
    bucketInv (runOps (TokenBucket.init R C t₀) pre)
    ∧ ∀ (b : TokenBucket) (now : ℚ), 0 ≤ b.rate → b.tokens ≤ b.capacity →
        b.last_update ≤ now → b.tokens ≤ (b.refill now).tokens := by
  constructor
  · exact runOps_inv pre (TokenBucket.init R C t₀) (le_of_lt hR)
      ⟨le_of_lt hC, le_refl _⟩ (timesOk_append_left pre suf _ hok)
  · exact fun b now => refill_never_decreases b now

theorem token_bucket_invariant_witness :
    timesOk (TokenBucket.init 2 5 0)
        ([BucketOp.consume 1 3, BucketOp.get_available 2] ++ [BucketOp.refill 3])
      = true
    ∧ bucketInv (runOps (TokenBucket.init 2 5 0)
        [BucketOp.consume 1 3, BucketOp.get_available 2]) := by
  have hok : timesOk (TokenBucket.init 2 5 0)
      ([BucketOp.consume 1 3, BucketOp.get_available 2] ++ [BucketOp.refill 3])
      = true := by
    simp only [List.cons_append, List.nil_append, timesOk, applyOp,
      TokenBucket.init, TokenBucket.consume, TokenBucket.refill,
      TokenBucket.get_available_tokens, BucketOp.time, Bool.and_eq_true,
      decide_eq_true_eq, min_def]
    norm_num
  exact ⟨hok,
    (token_bucket_invariant 2 5 0 [BucketOp.consume 1 3, BucketOp.get_available 2]
      [BucketOp.refill 3] (by norm_num) (by norm_num) hok).1⟩

end Arbx
